import Mathlib

/-!
Verification of the serial-monitor channel runtime.

The definitions below are a shallow embedding of the JavaScript source:

* `frameLines`       — the line framer: `@serialport/parser-readline` as
  configured in `src/serial-manager.js` lines 187–190 (`delimiter: '\n'`,
  `includeDelimiter: false`): the byte stream is split at each LF, the
  delimiter is excluded, and the tail after the last LF stays accumulated.
* `SerialConnection` — per-channel state (`src/serial-manager.js` lines 19–55).
* `SerialManager`    — the channelId → connection map and its operations
  (`src/serial-manager.js` lines 57–335).
* `sendEncode`       — the three send encodings (`src/serial-manager.js`
  lines 244–262), with Node `Buffer.from(·,'hex')`, JavaScript
  `parseInt(·,2)` and UTF-8 semantics spelled out.
* `decodeAll`        — the decoder registry fan-out (`src/plugin-loader.js`
  lines 62–75).
* `wsLineMessage`    — the websocket `line` broadcast (`src/ws-handler.js`
  lines 19–28).
* `macroRun`         — the macro executor as an event trace
  (`src/macro-engine.js` lines 87–110).
-/

namespace SerialMonitor

/-- Direction of a buffered line entry. -/
inductive Direction where
  | rx
  | tx
deriving DecidableEq, Repr

/-- Send encoding mode (`'ascii' | 'hex' | 'binary'`). -/
inductive SendMode where
  | ascii
  | hex
  | binary
deriving DecidableEq, Repr

/-- One buffered record, `src/serial-manager.js` lines 193–199 (rx) and
272–279 (tx).  `mode` is present only on tx entries. -/
structure LineEntry where
  timestamp : Nat
  direction : Direction
  data : String
  mode : Option SendMode := none
  index : Nat
  channelId : String
deriving DecidableEq, Repr

/-- Per-channel counters, `src/serial-manager.js` lines 26–33. -/
structure Stats where
  bytesRx : Nat
  bytesTx : Nat
  linesRx : Nat
  linesTx : Nat
  errors : Nat
  connectedAt : Option Nat
deriving DecidableEq, Repr

/-- Port configuration as built in `connect` (`src/serial-manager.js` lines
145–155).  JavaScript stores stop bits as a float in `{1, 1.5, 2}`; we store
the doubled value to stay integral. -/
structure PortConfig where
  path : String
  baudRate : Nat
  dataBits : Nat
  stopBitsTimesTwo : Nat
  parity : String
  rtscts : Bool
  xon : Bool
  xoff : Bool
deriving DecidableEq, Repr

/-- Hard cap of the per-channel ring buffer,
`src/serial-manager.js` line 34. -/
def MAX_BUFFER_LINES : Nat := 10000000

/-- State of one `SerialConnection` (`src/serial-manager.js` lines 19–37).
`hasPort` models `port !== null`. -/
structure SerialConnection where
  channelId : String
  hasPort : Bool
  connected : Bool
  config : Option PortConfig
  stats : Stats
  buffer : List LineEntry
  bufferIndex : Nat
deriving DecidableEq, Repr

/-- The status snapshot returned by `SerialConnection.getStatus`
(`src/serial-manager.js` lines 39–47) and by `SerialManager.getStatus` for a
missing channel (`src/serial-manager.js` lines 312–318). -/
structure ChannelStatus where
  channelId : String
  connected : Bool
  config : Option PortConfig
  stats : Stats
  bufferSize : Nat
deriving DecidableEq, Repr

/-- The fresh connection built by `new SerialConnection(channelId)`
(`src/serial-manager.js` lines 20–37). -/
def SerialConnection.init (channelId : String) : SerialConnection :=
  { channelId := channelId
    hasPort := false
    connected := false
    config := none
    stats := { bytesRx := 0, bytesTx := 0, linesRx := 0, linesTx := 0,
               errors := 0, connectedAt := none }
    buffer := []
    bufferIndex := 0 }

/-- `SerialConnection._addToBuffer` (`src/serial-manager.js` lines 49–54):
when the buffer is at capacity, `shift()` drops the front before `push`. -/
def SerialConnection.addToBuffer (c : SerialConnection) (entry : LineEntry) :
    SerialConnection :=
  let buf := if MAX_BUFFER_LINES ≤ c.buffer.length then c.buffer.tail else c.buffer
  { c with buffer := buf ++ [entry] }

/-! ### The line framer

`conn.port.pipe(new ReadlineParser({delimiter: '\n', includeDelimiter: false}))`
(`src/serial-manager.js` lines 187–190).  The parser keeps an accumulator,
splits the incoming character stream at every `'\n'`, emits each segment
without the delimiter, and keeps the trailing segment buffered.
`frameLines acc cs` returns the emitted lines and the new accumulator. -/

def frameLines (acc : List Char) : List Char → List (List Char) × List Char
  | [] => ([], acc)
  | c :: cs =>
    if c = '\n' then
      let r := frameLines [] cs
      (acc :: r.1, r.2)
    else
      frameLines (acc ++ [c]) cs

/-! ### Send encodings (`src/serial-manager.js` lines 244–262) -/

/-- JavaScript regexp `\s` character class (used by `data.replace(/\s+/g, '')`). -/
def isJsSpace (c : Char) : Bool :=
  let n := c.toNat
  n = 32 || n = 9 || n = 10 || n = 11 || n = 12 || n = 13 ||
  n = 160 || n = 5760 || (8192 ≤ n && n ≤ 8202) || n = 8232 || n = 8233 ||
  n = 8239 || n = 8287 || n = 12288 || n = 65279

/-- The character list of `data.replace(/\s+/g, '')`. -/
def stripWs (s : String) : List Char := s.data.filter (fun c => !isJsSpace c)

/-- Value of one hex digit, or `none` for a non-hex character. -/
def hexVal (c : Char) : Option Nat :=
  if 48 ≤ c.toNat ∧ c.toNat ≤ 57 then some (c.toNat - 48)
  else if 97 ≤ c.toNat ∧ c.toNat ≤ 102 then some (c.toNat - 87)
  else if 65 ≤ c.toNat ∧ c.toNat ≤ 70 then some (c.toNat - 55)
  else none

/-- Node `Buffer.from(str, 'hex')`: decode successive pairs of hex digits,
stopping (without error) at the first malformed pair or at an odd trailing
digit; the bytes decoded so far are kept. -/
def hexDecodeBytes : List Char → List Nat
  | c1 :: c2 :: rest =>
    match hexVal c1, hexVal c2 with
    | some hi, some lo => (16 * hi + lo) :: hexDecodeBytes rest
    | _, _ => []
  | _ => []

/-- Structural worker for `chunks8`: `fuel` only bounds the recursion depth
(each step consumes at least one character, so `fuel = l.length` never runs
out). -/
def chunks8Go : Nat → List Char → List (List Char)
  | _, [] => []
  | 0, _ :: _ => []
  | fuel + 1, c :: rest => (c :: rest.take 7) :: chunks8Go fuel (rest.drop 7)

/-- Successive 8-character chunks of `bits` taken by the loop
`for (let i = 0; i < bits.length; i += 8) ... bits.substring(i, i + 8)`. -/
def chunks8 (l : List Char) : List (List Char) := chunks8Go l.length l

/-- Whether a character is a binary digit. -/
def isBit (c : Char) : Bool := c = '0' || c = '1'

/-- Numeric value of a binary digit (non-digits contribute 0). -/
def bitDigit (c : Char) : Nat := if c = '1' then 1 else 0

/-- Value of a digit string read in base 2, most significant digit first. -/
def bitsVal (cs : List Char) : Nat := cs.foldl (fun a c => 2 * a + bitDigit c) 0

/-- JavaScript `parseInt(str, 2)` for an already-whitespace-free string:
the longest leading run of binary digits is evaluated in base 2; if there is
none the result is NaN, modelled as `none`. -/
def parseIntBin (cs : List Char) : Option Nat :=
  let ds := cs.takeWhile isBit
  if ds.isEmpty then none else some (bitsVal ds)

/-- The `binary` branch: each 8-character chunk goes through `parseInt(·, 2)`
and then into `Buffer.from`, which coerces NaN to 0 and reduces numbers
modulo 256. -/
def binaryBytes (cs : List Char) : List Nat :=
  (chunks8 cs).map (fun chunk =>
    match parseIntBin chunk with
    | some v => v % 256
    | none => 0)

/-- UTF-8 encoding of one character. -/
def utf8Char (c : Char) : List Nat :=
  let n := c.toNat
  if n < 128 then [n]
  else if n < 2048 then [192 + n / 64, 128 + n % 64]
  else if n < 65536 then [224 + n / 4096, 128 + (n / 64) % 64, 128 + n % 64]
  else [240 + n / 262144, 128 + (n / 4096) % 64, 128 + (n / 64) % 64, 128 + n % 64]

/-- Node `Buffer.from(s, 'utf-8')` as a byte list. -/
def utf8Bytes (s : String) : List Nat := (s.data.map utf8Char).flatten

/-- The buffer handed to `conn.port.write` for each send mode
(`src/serial-manager.js` lines 244–262). -/
def sendEncode (data : String) (mode : SendMode) : List Nat :=
  match mode with
  | SendMode.hex => hexDecodeBytes (stripWs data)
  | SendMode.binary => binaryBytes (stripWs data)
  | SendMode.ascii => utf8Bytes (data ++ "\n")

/-! ### Channel operations -/

/-- Events published on the manager's event bus that the claims observe. -/
inductive Event where
  | lineEv (channelId : String) (entry : LineEntry)
  | errorEv (channelId : String) (msg : String)
deriving DecidableEq, Repr

/-- `SerialManager.send` acting on the resolved connection
(`src/serial-manager.js` lines 238–283).  `writeResult` is the outcome the
device reports to the `port.write` callback: `none` for success, `some msg`
for a write error.  The encoded buffer `sendEncode data mode` is what is
handed to `port.write`. -/
def SerialConnection.send (c : SerialConnection) (data : String) (mode : SendMode)
    (writeResult : Option String) (now : Nat) :
    Except String (SerialConnection × List Event) :=
  if !c.hasPort || !c.connected then
    Except.error "Not connected to any serial port on this channel"
  else
    let buf := sendEncode data mode
    match writeResult with
    | some errMsg =>
      Except.ok ({ c with stats := { c.stats with errors := c.stats.errors + 1 } },
        [Event.errorEv c.channelId ("Send error: " ++ errMsg)])
    | none =>
      let entry : LineEntry :=
        { timestamp := now, direction := Direction.tx, data := data,
          mode := some mode, index := c.bufferIndex, channelId := c.channelId }
      let newStats := { c.stats with bytesTx := c.stats.bytesTx + buf.length,
                                      linesTx := c.stats.linesTx + 1 }
      let c1 := { c with stats := newStats, bufferIndex := c.bufferIndex + 1 }
      Except.ok (c1.addToBuffer entry, [Event.lineEv c.channelId entry])

/-- The parser `data` handler (`src/serial-manager.js` lines 191–202): bump
`linesRx`, build an rx entry at the next index, append it, publish `line`. -/
def SerialConnection.rxLine (c : SerialConnection) (now : Nat) (line : String) :
    SerialConnection × Event :=
  let c1 := { c with stats := { c.stats with linesRx := c.stats.linesRx + 1 } }
  let entry : LineEntry :=
    { timestamp := now, direction := Direction.rx, data := line,
      mode := none, index := c1.bufferIndex, channelId := c.channelId }
  let c2 := { c1 with bufferIndex := c1.bufferIndex + 1 }
  (c2.addToBuffer entry, Event.lineEv c.channelId entry)

/-- The body of `SerialManager.clearBuffer`'s `if (conn)` branch
(`src/serial-manager.js` lines 300–303): empty the buffer, reset the index. -/
def SerialConnection.clearConn (c : SerialConnection) : SerialConnection :=
  { c with buffer := [], bufferIndex := 0 }

/-- `SerialConnection.getStatus` (`src/serial-manager.js` lines 39–47). -/
def SerialConnection.getStatus (c : SerialConnection) : ChannelStatus :=
  { channelId := c.channelId, connected := c.connected, config := c.config,
    stats := c.stats, bufferSize := c.buffer.length }

/-! ### The channel manager (`src/serial-manager.js` lines 57–335) -/

/-- The manager state: the `Map<string, SerialConnection>` as an
insertion-ordered association list with unique keys. -/
structure SerialManager where
  connections : List (String × SerialConnection)
deriving DecidableEq, Repr

/-- `SerialManager.getConnection` (`src/serial-manager.js` lines 121–126):
get-or-create; a missing channel is inserted into the map. -/
def SerialManager.getConnection (m : SerialManager) (channelId : String) :
    SerialManager × SerialConnection :=
  match m.connections.lookup channelId with
  | some c => (m, c)
  | none =>
    let c := SerialConnection.init channelId
    ({ connections := m.connections ++ [(channelId, c)] }, c)

/-- In-place mutation of the connection object held under `channelId`. -/
def SerialManager.updateConn (m : SerialManager) (channelId : String)
    (c : SerialConnection) : SerialManager :=
  { connections := m.connections.map (fun p => if p.1 = channelId then (p.1, c) else p) }

/-- `SerialManager.send` (`src/serial-manager.js` lines 238–283): a missing
channel fails the same `Not connected` check as a closed one. -/
def SerialManager.send (m : SerialManager) (channelId : String) (data : String)
    (mode : SendMode) (writeResult : Option String) (now : Nat) :
    Except String (SerialManager × List Event) :=
  match m.connections.lookup channelId with
  | none => Except.error "Not connected to any serial port on this channel"
  | some c =>
    (c.send data mode writeResult now).map (fun r => (m.updateConn channelId r.1, r.2))

/-- `SerialManager.getBuffer` (`src/serial-manager.js` lines 288–293). -/
def SerialManager.getBuffer (m : SerialManager) (channelId : String)
    (start : Nat) (count : Option Nat) : List LineEntry :=
  match m.connections.lookup channelId with
  | none => []
  | some c =>
    match count with
    | none => c.buffer.drop start
    | some k => (c.buffer.drop start).take k

/-- `SerialManager.clearBuffer` (`src/serial-manager.js` lines 298–304). -/
def SerialManager.clearBuffer (m : SerialManager) (channelId : String) :
    SerialManager :=
  match m.connections.lookup channelId with
  | none => m
  | some c => m.updateConn channelId c.clearConn

/-- `SerialManager.getStatus` with a `channelId`
(`src/serial-manager.js` lines 309–319). -/
def SerialManager.getStatus (m : SerialManager) (channelId : String) :
    ChannelStatus :=
  match m.connections.lookup channelId with
  | some c => c.getStatus
  | none =>
    { channelId := channelId, connected := false, config := none,
      stats := { bytesRx := 0, bytesTx := 0, linesRx := 0, linesTx := 0,
                 errors := 0, connectedAt := none },
      bufferSize := 0 }

/-! ### Decoder registry (`src/plugin-loader.js`) -/

/-- What a decoder plugin returns on success
(`{ protocol, fields, display }`); fields as an association list. -/
structure DecodedFrame where
  protocol : String
  fields : List (String × String)
  display : String
deriving DecidableEq, Repr

/-- Outcome of one `plugin.decode(data)` call: a returned value (possibly
null) or a thrown exception. -/
inductive DecodeResult where
  | ok (r : Option DecodedFrame)
  | threw
deriving DecidableEq, Repr

/-- A registered decoder plugin (`src/plugin-loader.js` lines 30–36). -/
structure DecoderPlugin where
  name : String
  decode : List Nat → DecodeResult

/-- A registry result: `{ plugin: plugin.name, ...result }`
(`src/plugin-loader.js` line 68). -/
structure NamedFrame where
  plugin : String
  protocol : String
  fields : List (String × String)
  display : String
deriving DecidableEq, Repr

/-- `PluginLoader.decodeAll` (`src/plugin-loader.js` lines 62–75): run every
decoder on the same bytes, accumulate the non-null results in order, skip a
decoder that throws. -/
def decodeAll (plugins : List DecoderPlugin) (data : List Nat) : List NamedFrame :=
  plugins.foldl (fun results p =>
    match p.decode data with
    | DecodeResult.ok (some r) =>
      results ++ [{ plugin := p.name, protocol := r.protocol,
                    fields := r.fields, display := r.display }]
    | DecodeResult.ok none => results
    | DecodeResult.threw => results) []

/-! ### WebSocket handler (`src/ws-handler.js`) -/

/-- The `serial:data` broadcast built by the `line` listener
(`src/ws-handler.js` lines 19–28).  `decoded` is attached when at least one
decoder produced a result; the listener does not look at the entry's
direction. -/
structure SerialDataMsg where
  channelId : String
  payload : LineEntry
  decoded : Option (List NamedFrame)
deriving DecidableEq, Repr

/-- `serialManager.on('line', ...)` (`src/ws-handler.js` lines 19–28):
decode `Buffer.from(entry.data)` with every plugin and attach the results
when non-empty. -/
def wsLineMessage (plugins : List DecoderPlugin) (channelId : String)
    (entry : LineEntry) : SerialDataMsg :=
  let decoded := decodeAll plugins (utf8Bytes entry.data)
  { channelId := channelId, payload := entry,
    decoded := if 0 < decoded.length then some decoded else none }

/-- Messages broadcast by `handleMessage` branches the claims observe. -/
inductive OutMsg where
  | serialCleared (channelId : String)
deriving DecidableEq, Repr

/-- The `serial:clear` branch of `handleMessage`
(`src/ws-handler.js` lines 127–130): clear, then broadcast `serial:cleared`. -/
def handleSerialClear (m : SerialManager) (channelId : String) :
    SerialManager × List OutMsg :=
  (m.clearBuffer channelId, [OutMsg.serialCleared channelId])

/-! ### Macro executor (`src/macro-engine.js`) -/

/-- One command of a stored sequence (`data`, `mode`, `delayMs`).  `mode` is
`none` when absent, defaulted to ascii at send time (`cmd.mode || 'ascii'`). -/
structure MacroCmd where
  data : String
  mode : Option SendMode
  delayMs : Nat
deriving DecidableEq, Repr

/-- A stored sequence as `MacroEngine.run` reads it
(`src/macro-engine.js` lines 87–110). -/
structure MacroDef where
  id : String
  name : String
  commands : List MacroCmd
  repeatCount : Nat
deriving DecidableEq, Repr

/-- Observable steps of a run: a `send` call and a timer suspension. -/
inductive MacroStep where
  | send (channelId : String) (data : String) (mode : SendMode)
  | sleep (ms : Nat)
deriving DecidableEq, Repr

/-- Parameter injection (`src/macro-engine.js` lines 98–100): for each
`[key, value]` of `params`, replace every occurrence of the literal
placeholder (the key between doubled braces) in `data`. -/
def substParams (params : List (String × String)) (data : String) : String :=
  params.foldl (fun d kv => d.replace ("\x7b\x7b" ++ kv.1 ++ "\x7d\x7d") kv.2) data

/-- The inner command loop (`src/macro-engine.js` lines 94–108): substitute,
send, then sleep when `cmd.delayMs && cmd.delayMs > 0` — for every command,
the last one included. -/
def runCmds (channelId : String) (params : List (String × String)) :
    List MacroCmd → List MacroStep
  | [] => []
  | cmd :: rest =>
    MacroStep.send channelId (substParams params cmd.data) (cmd.mode.getD SendMode.ascii)
      :: ((if 0 < cmd.delayMs then [MacroStep.sleep cmd.delayMs] else [])
          ++ runCmds channelId params rest)

/-- `MacroEngine.run` (`src/macro-engine.js` lines 87–110) as the trace of
send and sleep steps; `repeatCount = macro.repeatCount || 1`. -/
def macroRun (m : MacroDef) (params : List (String × String))
    (channelId : String) : List MacroStep :=
  let repeatCount := if m.repeatCount = 0 then 1 else m.repeatCount
  (List.range repeatCount).foldl
    (fun acc _ => acc ++ runCmds channelId params m.commands) []

/-- Modelled from the spec wording of the claim (for comparison with
`macroRun`): the same command traversal but with no suspension after the
final command of the final iteration. -/
def claimRunCmds (channelId : String) (params : List (String × String)) :
    List MacroCmd → List MacroStep
  | [] => []
  | [cmd] =>
    [MacroStep.send channelId (substParams params cmd.data) (cmd.mode.getD SendMode.ascii)]
  | cmd :: rest =>
    MacroStep.send channelId (substParams params cmd.data) (cmd.mode.getD SendMode.ascii)
      :: ((if 0 < cmd.delayMs then [MacroStep.sleep cmd.delayMs] else [])
          ++ claimRunCmds channelId params rest)

/-- Modelled from the spec wording of the claim: `repeatCount` iterations,
delays between commands and between iterations, but none after the final
command of the final iteration. -/
def specTraceClaim (m : MacroDef) (params : List (String × String))
    (channelId : String) : List MacroStep :=
  let repeatCount := if m.repeatCount = 0 then 1 else m.repeatCount
  ((List.range (repeatCount - 1)).foldl
    (fun acc _ => acc ++ runCmds channelId params m.commands) [])
    ++ claimRunCmds channelId params m.commands

/-- The suspension the code performs after the final command of the final
iteration (the part the claim says does not happen). -/
def trailingDelay (cmds : List MacroCmd) : List MacroStep :=
  match cmds.getLast? with
  | none => []
  | some cmd => if 0 < cmd.delayMs then [MacroStep.sleep cmd.delayMs] else []

/-! ### Channel operation sequences (for the ring-buffer invariant) -/

/-- The operations that touch a channel's ring buffer. -/
inductive ChannelOp where
  | rxLine (now : Nat) (line : String)
  | sendOp (data : String) (mode : SendMode) (writeResult : Option String) (now : Nat)
  | clear
deriving Repr

/-- Apply one operation to a connection's state (events discarded; a send on
a closed channel throws in the source and leaves the state unchanged). -/
def applyOp (c : SerialConnection) : ChannelOp → SerialConnection
  | ChannelOp.rxLine now line => (c.rxLine now line).1
  | ChannelOp.sendOp data mode w now =>
    match c.send data mode w now with
    | Except.ok r => r.1
    | Except.error _ => c
  | ChannelOp.clear => c.clearConn

/-! ## Helper lemmas -/

/-- One emitted line per LF in the stream. -/
lemma frameLines_length (cs : List Char) :
    ∀ acc, ((frameLines acc cs).1).length = cs.count '\n' := by
  induction cs with
  | nil => intro acc; simp [frameLines]
  | cons c cs ih =>
    intro acc
    by_cases h : c = '\n'
    · subst h
      simp [frameLines, ih, List.count_cons]
    · rw [frameLines, if_neg h, ih, List.count_cons]
      simp [h]

/-- No emitted line contains the delimiter. -/
lemma frameLines_no_delim (cs : List Char) :
    ∀ acc, '\n' ∉ acc → ∀ l ∈ (frameLines acc cs).1, '\n' ∉ l := by
  induction cs with
  | nil => intro acc _; simp [frameLines]
  | cons c cs ih =>
    intro acc hacc l hl
    by_cases h : c = '\n'
    · subst h
      rw [frameLines] at hl
      simp only [if_pos rfl] at hl
      rcases List.mem_cons.mp hl with h1 | h1
      · subst h1; exact hacc
      · exact ih [] (by simp) l h1
    · rw [frameLines, if_neg h] at hl
      refine ih (acc ++ [c]) ?_ l hl
      intro hmem
      rcases List.mem_append.mp hmem with h1 | h1
      · exact hacc h1
      · simp at h1
        exact h h1.symm

/-- Content preservation: re-inserting the delimiter between the emitted
lines and appending the remainder recovers the whole input.  In particular
nothing (no `'\r'` included) is ever stripped from a line's data. -/
lemma frameLines_join (cs : List Char) :
    ∀ acc, List.foldr (fun l r => l ++ '\n' :: r) (frameLines acc cs).2
      (frameLines acc cs).1 = acc ++ cs := by
  induction cs with
  | nil => intro acc; simp [frameLines]
  | cons c cs ih =>
    intro acc
    by_cases h : c = '\n'
    · subst h
      rw [frameLines, if_pos rfl]
      simp only [List.foldr_cons]
      rw [ih []]
      simp
    · rw [frameLines, if_neg h, ih (acc ++ [c])]
      simp

/-- Appending never takes the buffer beyond the cap. -/
lemma addToBuffer_length_le (c : SerialConnection) (e : LineEntry)
    (h : c.buffer.length ≤ MAX_BUFFER_LINES) :
    (c.addToBuffer e).buffer.length ≤ MAX_BUFFER_LINES := by
  have hM : 0 < MAX_BUFFER_LINES := by decide
  unfold SerialConnection.addToBuffer
  by_cases hfull : MAX_BUFFER_LINES ≤ c.buffer.length
  · simp only [if_pos hfull, List.length_append, List.length_tail,
      List.length_cons, List.length_nil]
    omega
  · simp only [if_neg hfull, List.length_append, List.length_cons,
      List.length_nil]
    omega

/-- A successful or failed `send` never takes the buffer beyond the cap. -/
lemma send_length_le (c : SerialConnection) (data : String) (mode : SendMode)
    (w : Option String) (now : Nat) (r : SerialConnection × List Event)
    (hr : c.send data mode w now = Except.ok r)
    (h : c.buffer.length ≤ MAX_BUFFER_LINES) :
    r.1.buffer.length ≤ MAX_BUFFER_LINES := by
  unfold SerialConnection.send at hr
  by_cases hcond : (!c.hasPort || !c.connected) = true
  · rw [if_pos hcond] at hr
    cases hr
  · rw [if_neg hcond] at hr
    cases w with
    | some msg =>
      simp only [Except.ok.injEq] at hr
      subst hr
      simpa using h
    | none =>
      simp only [Except.ok.injEq] at hr
      subst hr
      exact addToBuffer_length_le _ _ h

/-- Every channel operation preserves the buffer cap. -/
lemma applyOp_length_le (c : SerialConnection) (op : ChannelOp)
    (h : c.buffer.length ≤ MAX_BUFFER_LINES) :
    (applyOp c op).buffer.length ≤ MAX_BUFFER_LINES := by
  cases op with
  | rxLine now line =>
    simp only [applyOp, SerialConnection.rxLine]
    exact addToBuffer_length_le _ _ h
  | sendOp data mode w now =>
    simp only [applyOp]
    cases hr : c.send data mode w now with
    | error e => simpa using h
    | ok r => simpa using send_length_le c data mode w now r hr h
  | clear =>
    simp only [applyOp, SerialConnection.clearConn]
    simp

/-- The cap holds after any sequence of operations from a state below it. -/
lemma foldl_applyOp_length_le (ops : List ChannelOp) :
    ∀ c : SerialConnection, c.buffer.length ≤ MAX_BUFFER_LINES →
      (ops.foldl applyOp c).buffer.length ≤ MAX_BUFFER_LINES := by
  induction ops with
  | nil => intro c h; simpa using h
  | cons op ops ih =>
    intro c h
    simp only [List.foldl_cons]
    exact ih _ (applyOp_length_le c op h)

/-! ## C8 -/

/-- C8: starting from a fresh channel, no sequence of buffer-touching
operations ever takes the ring buffer beyond 10 000 000 entries; and an
append on a full buffer evicts exactly the oldest (front) entry before
pushing the new one at the back, leaving the `index` fields of the surviving
entries unchanged. -/
theorem C8_ring_buffer :
    (∀ (channelId : String) (ops : List ChannelOp),
      (ops.foldl applyOp (SerialConnection.init channelId)).buffer.length
        ≤ MAX_BUFFER_LINES)
    ∧ (∀ (c : SerialConnection) (e : LineEntry),
        c.buffer.length = MAX_BUFFER_LINES →
          (c.addToBuffer e).buffer = c.buffer.tail ++ [e]
          ∧ (c.addToBuffer e).buffer.dropLast.map LineEntry.index
              = (c.buffer.map LineEntry.index).tail) := by
  constructor
  · intro channelId ops
    exact foldl_applyOp_length_le ops _ (by simp [SerialConnection.init])
  · intro c e h
    have hfull : MAX_BUFFER_LINES ≤ c.buffer.length := le_of_eq h.symm
    have hbuf : (c.addToBuffer e).buffer = c.buffer.tail ++ [e] := by
      unfold SerialConnection.addToBuffer
      simp [if_pos hfull]
    refine ⟨hbuf, ?_⟩
    rw [hbuf, List.dropLast_concat, List.map_tail]

/-- C8 witness: the eviction clause applied to a concrete buffer at
capacity. -/
theorem C8_ring_buffer_witness :
    (let e0 : LineEntry :=
       { timestamp := 0, direction := Direction.rx, data := "x", mode := none,
         index := 0, channelId := "a" };
     let c0 : SerialConnection :=
       { SerialConnection.init "a" with buffer := List.replicate MAX_BUFFER_LINES e0 };
     (c0.addToBuffer e0).buffer = c0.buffer.tail ++ [e0]
       ∧ (c0.addToBuffer e0).buffer.dropLast.map LineEntry.index
           = (c0.buffer.map LineEntry.index).tail) := by
  exact C8_ring_buffer.2 _ _ (by simp)

/-! ## C1 -/

/-- C1 counterexample: feeding the chunks `"foo\r"` then `"\nbar\n"` to the
framer (here as the concatenated stream) emits `"foo\r"` and `"bar"` — the
`'\r'` preceding the LF is NOT stripped from the first entry's data, whereas
the claim requires `data = "foo"`. -/
theorem C1_counterexample :
    (frameLines [] ("foo\r\nbar\n".data)).1 = ["foo\r".data, "bar".data]
    ∧ '\r' ∈ "foo\r".data := by
  decide

/-- C1 (amended): for every rx stream, the framer emits one entry per `'\n'`
terminator and the terminator is never included in an entry's data, but a
`'\r'` immediately preceding the `'\n'` is retained (the join clause shows
the emitted lines carry the input verbatim, delimiters apart). -/
theorem C1_line_framer (acc cs : List Char) (h : '\n' ∉ acc) :
    ((frameLines acc cs).1).length = cs.count '\n'
    ∧ (∀ l ∈ (frameLines acc cs).1, '\n' ∉ l)
    ∧ List.foldr (fun l r => l ++ '\n' :: r) (frameLines acc cs).2
        (frameLines acc cs).1 = acc ++ cs :=
  ⟨frameLines_length cs acc, frameLines_no_delim cs acc h, frameLines_join cs acc⟩

/-- C1 witness: the amended framer theorem applied to the concrete stream
`"foo\r\nbar\n"` with an empty accumulator. -/
theorem C1_line_framer_witness :
    ((frameLines [] ("foo\r\nbar\n".data)).1).length = ("foo\r\nbar\n".data).count '\n'
    ∧ (∀ l ∈ (frameLines [] ("foo\r\nbar\n".data)).1, '\n' ∉ l)
    ∧ List.foldr (fun l r => l ++ '\n' :: r) (frameLines [] ("foo\r\nbar\n".data)).2
        (frameLines [] ("foo\r\nbar\n".data)).1 = [] ++ "foo\r\nbar\n".data :=
  C1_line_framer [] ("foo\r\nbar\n".data) (by decide)

/-! ## C6 -/

/-- C6: `send` fails with the not-connected error when the channel is absent
or closed; a failed device write increments `stats.errors`, publishes an
`error` event, and leaves the channel otherwise unchanged — no tx entry, no
`bytesTx`/`linesTx` increment, no index advance. -/
theorem C6_send_errors :
    (∀ (m : SerialManager) (channelId data : String) (mode : SendMode)
        (w : Option String) (now : Nat),
        m.connections.lookup channelId = none →
        m.send channelId data mode w now
          = Except.error "Not connected to any serial port on this channel")
    ∧ (∀ (c : SerialConnection) (data : String) (mode : SendMode)
        (w : Option String) (now : Nat),
        c.connected = false →
        c.send data mode w now
          = Except.error "Not connected to any serial port on this channel")
    ∧ (∀ (c : SerialConnection) (data : String) (mode : SendMode)
        (errMsg : String) (now : Nat),
        c.hasPort = true → c.connected = true →
        ∃ c1 evs, c.send data mode (some errMsg) now = Except.ok (c1, evs)
          ∧ c1.stats.errors = c.stats.errors + 1
          ∧ evs = [Event.errorEv c.channelId ("Send error: " ++ errMsg)]
          ∧ c1.buffer = c.buffer
          ∧ c1.stats.bytesTx = c.stats.bytesTx
          ∧ c1.stats.linesTx = c.stats.linesTx
          ∧ c1.bufferIndex = c.bufferIndex) := by
  refine ⟨?_, ?_, ?_⟩
  · intro m channelId data mode w now h
    unfold SerialManager.send
    rw [h]
  · intro c data mode w now h
    unfold SerialConnection.send
    rw [if_pos (by simp [h])]
  · intro c data mode errMsg now hp hc
    refine ⟨{ c with stats := { c.stats with errors := c.stats.errors + 1 } },
      [Event.errorEv c.channelId ("Send error: " ++ errMsg)], ?_, rfl, rfl, rfl,
      rfl, rfl, rfl⟩
    unfold SerialConnection.send
    rw [if_neg (by simp [hp, hc])]

/-- C6 witness: the three clauses applied to a concrete empty manager, a
concrete closed connection, and a concrete open connection with a failing
write. -/
theorem C6_send_errors_witness :
    (SerialManager.mk []).send "a" "hi" SendMode.ascii none 0
      = Except.error "Not connected to any serial port on this channel"
    ∧ (SerialConnection.init "a").send "hi" SendMode.ascii none 0
        = Except.error "Not connected to any serial port on this channel"
    ∧ (let c : SerialConnection :=
         { SerialConnection.init "a" with hasPort := true, connected := true };
       ∃ c1 evs, c.send "hi" SendMode.ascii (some "boom") 5 = Except.ok (c1, evs)
         ∧ c1.stats.errors = c.stats.errors + 1
         ∧ evs = [Event.errorEv c.channelId ("Send error: " ++ "boom")]
         ∧ c1.buffer = c.buffer
         ∧ c1.stats.bytesTx = c.stats.bytesTx
         ∧ c1.stats.linesTx = c.stats.linesTx
         ∧ c1.bufferIndex = c.bufferIndex) :=
  ⟨C6_send_errors.1 (SerialManager.mk []) "a" "hi" SendMode.ascii none 0 rfl,
   C6_send_errors.2.1 (SerialConnection.init "a") "hi" SendMode.ascii none 0 rfl,
   C6_send_errors.2.2 _ "hi" SendMode.ascii "boom" 5 rfl rfl⟩

/-! ## C7 -/

/-- Looking up the updated key returns the new value exactly when the key was
present. -/
lemma lookup_map_update (l : List (String × SerialConnection)) (id : String)
    (c : SerialConnection) :
    (l.map (fun p => if p.1 = id then (p.1, c) else p)).lookup id
      = (l.lookup id).map (fun _ => c) := by
  induction l with
  | nil => rfl
  | cons p l ih =>
    simp only [List.map_cons]
    by_cases h : p.1 = id
    · rw [if_pos h]
      have hbeq : (id == p.1) = true := by simp [h]
      simp [List.lookup, hbeq]
    · rw [if_neg h]
      have hbeq : (id == p.1) = false := by simp [Ne.symm h]
      simp [List.lookup, hbeq, ih]

/-- Two in-place updates of the same key collapse to the second. -/
lemma updateConn_updateConn (m : SerialManager) (id : String)
    (a b : SerialConnection) :
    (m.updateConn id a).updateConn id b = m.updateConn id b := by
  cases m with
  | mk conns =>
    unfold SerialManager.updateConn
    simp only [SerialManager.mk.injEq]
    induction conns with
    | nil => rfl
    | cons p l ih =>
      simp only [List.map_cons, List.cons.injEq]
      refine ⟨?_, ih⟩
      by_cases h : p.1 = id
      · simp [h]
      · simp [h]

/-- Clearing a cleared connection changes nothing. -/
lemma clearConn_clearConn (c : SerialConnection) :
    c.clearConn.clearConn = c.clearConn := rfl

/-- C7: `clearBuffer` empties the ring buffer, resets the next index to 0,
leaves every stats field unchanged, and the `serial:clear` handler publishes
`cleared`; it is idempotent at the manager level, and after it the status
snapshot shows `bufferSize = 0` with the stats it had before. -/
theorem C7_clear_buffer :
    (∀ c : SerialConnection,
      c.clearConn.buffer = [] ∧ c.clearConn.bufferIndex = 0
        ∧ c.clearConn.stats = c.stats ∧ c.clearConn.clearConn = c.clearConn)
    ∧ (∀ (m : SerialManager) (channelId : String),
        (m.clearBuffer channelId).clearBuffer channelId = m.clearBuffer channelId
        ∧ ((m.clearBuffer channelId).getStatus channelId).bufferSize = 0
        ∧ ((m.clearBuffer channelId).getStatus channelId).stats
            = (m.getStatus channelId).stats
        ∧ (handleSerialClear m channelId).2 = [OutMsg.serialCleared channelId]) := by
  constructor
  · intro c
    exact ⟨rfl, rfl, rfl, rfl⟩
  · intro m channelId
    cases hl : m.connections.lookup channelId with
    | none =>
      have h1 : m.clearBuffer channelId = m := by
        unfold SerialManager.clearBuffer
        rw [hl]
      rw [h1]
      have h2 : m.getStatus channelId
          = { channelId := channelId, connected := false, config := none,
              stats := { bytesRx := 0, bytesTx := 0, linesRx := 0, linesTx := 0,
                         errors := 0, connectedAt := none },
              bufferSize := 0 } := by
        unfold SerialManager.getStatus
        rw [hl]
      exact ⟨h1, by rw [h2], rfl, rfl⟩
    | some c =>
      have h1 : m.clearBuffer channelId = m.updateConn channelId c.clearConn := by
        unfold SerialManager.clearBuffer
        rw [hl]
      have h2 : (m.updateConn channelId c.clearConn).connections.lookup channelId
          = some c.clearConn := by
        unfold SerialManager.updateConn
        rw [lookup_map_update, hl]
        rfl
      refine ⟨?_, ?_, ?_, rfl⟩
      · rw [h1]
        unfold SerialManager.clearBuffer
        rw [h2]
        show (m.updateConn channelId c.clearConn).updateConn channelId
            c.clearConn.clearConn = m.updateConn channelId c.clearConn
        rw [clearConn_clearConn]
        exact updateConn_updateConn m channelId c.clearConn c.clearConn
      · rw [h1]
        unfold SerialManager.getStatus
        rw [h2]
        rfl
      · rw [h1]
        unfold SerialManager.getStatus
        rw [h2, hl]
        rfl

/-! ## C10 -/

/-- C10: with a `channelId` for which no channel exists, `getBuffer` returns
the empty list, `getStatus` returns the default disconnected snapshot with
all-zero stats and `bufferSize = 0`, and `clearBuffer` leaves the manager
state unchanged (none of the three creates a channel — in this embedding
`getBuffer` and `getStatus` are read-only functions of the state, as in the
source they use `Map.get`, never `Map.set`); `getConnection` is the
operation that inserts the missing channel. -/
theorem C10_missing_channel :
    (∀ (m : SerialManager) (channelId : String) (start : Nat) (count : Option Nat),
      m.connections.lookup channelId = none →
        m.getBuffer channelId start count = []
        ∧ m.getStatus channelId
            = { channelId := channelId, connected := false, config := none,
                stats := { bytesRx := 0, bytesTx := 0, linesRx := 0, linesTx := 0,
                           errors := 0, connectedAt := none },
                bufferSize := 0 }
        ∧ m.clearBuffer channelId = m)
    ∧ (∀ (m : SerialManager) (channelId : String),
        (m.getConnection channelId).1.connections.lookup channelId
          = some (m.getConnection channelId).2) := by
  constructor
  · intro m channelId start count h
    refine ⟨?_, ?_, ?_⟩
    · unfold SerialManager.getBuffer
      rw [h]
    · unfold SerialManager.getStatus
      rw [h]
    · unfold SerialManager.clearBuffer
      rw [h]
  · intro m channelId
    unfold SerialManager.getConnection
    cases hl : m.connections.lookup channelId with
    | some c => simpa using hl
    | none =>
      simp only
      rw [List.lookup_append, hl]
      simp [List.lookup]

/-- C10 witness: the missing-channel clauses applied to the empty manager. -/
theorem C10_missing_channel_witness :
    (SerialManager.mk []).getBuffer "a" 0 none = []
    ∧ (SerialManager.mk []).getStatus "a"
        = { channelId := "a", connected := false, config := none,
            stats := { bytesRx := 0, bytesTx := 0, linesRx := 0, linesTx := 0,
                       errors := 0, connectedAt := none },
            bufferSize := 0 }
    ∧ (SerialManager.mk []).clearBuffer "a" = SerialManager.mk [] :=
  C10_missing_channel.1 (SerialManager.mk []) "a" 0 none rfl

/-! ## C9 -/

/-- The registry result contributed by one decoder, or `none` when the
decoder returned null or threw. -/
lemma decodeAll_go (data : List Nat) (ps : List DecoderPlugin) :
    ∀ acc : List NamedFrame,
      ps.foldl (fun results p =>
        match p.decode data with
        | DecodeResult.ok (some r) =>
          results ++ [{ plugin := p.name, protocol := r.protocol,
                        fields := r.fields, display := r.display }]
        | DecodeResult.ok none => results
        | DecodeResult.threw => results) acc
      = acc ++ ps.filterMap (fun p =>
          match p.decode data with
          | DecodeResult.ok (some r) =>
            some { plugin := p.name, protocol := r.protocol,
                   fields := r.fields, display := r.display }
          | _ => none) := by
  induction ps with
  | nil => intro acc; simp
  | cons p ps ih =>
    intro acc
    simp only [List.foldl_cons, List.filterMap_cons]
    cases hd : p.decode data with
    | ok r =>
      cases r with
      | some fr => simp [hd, ih, List.append_assoc]
      | none => simp [hd, ih]
    | threw => simp [hd, ih]

/-- `decodeAll` is the filterMap of the per-decoder contribution. -/
lemma decodeAll_eq_filterMap (ps : List DecoderPlugin) (data : List Nat) :
    decodeAll ps data = ps.filterMap (fun p =>
      match p.decode data with
      | DecodeResult.ok (some r) =>
        some { plugin := p.name, protocol := r.protocol,
               fields := r.fields, display := r.display }
      | _ => none) := by
  unfold decodeAll
  rw [decodeAll_go data ps []]
  simp

/-- C9: `decodeAll` returns exactly the non-null decoder results in
registration order, each tagged with its decoder's name by the registry; a
decoder that throws contributes nothing and removing it from anywhere in the
registration list leaves the other decoders' results untouched. -/
theorem C9_decode_all :
    (∀ (ps : List DecoderPlugin) (data : List Nat),
      decodeAll ps data = ps.filterMap (fun p =>
        match p.decode data with
        | DecodeResult.ok (some r) =>
          some { plugin := p.name, protocol := r.protocol,
                 fields := r.fields, display := r.display }
        | _ => none))
    ∧ (∀ (ps1 ps2 : List DecoderPlugin) (p : DecoderPlugin) (data : List Nat),
        p.decode data = DecodeResult.threw →
          decodeAll (ps1 ++ p :: ps2) data = decodeAll (ps1 ++ ps2) data) := by
  constructor
  · exact decodeAll_eq_filterMap
  · intro ps1 ps2 p data h
    rw [decodeAll_eq_filterMap, decodeAll_eq_filterMap]
    rw [List.filterMap_append, List.filterMap_append, List.filterMap_cons]
    rw [h]

/-- C9 witness: a throwing decoder placed between two working decoders
contributes nothing and leaves their results unchanged. -/
theorem C9_decode_all_witness :
    (let good : DecoderPlugin :=
       { name := "Good", decode := fun _ => DecodeResult.ok
           (some { protocol := "G", fields := [], display := "g" }) };
     let bad : DecoderPlugin := { name := "Bad", decode := fun _ => DecodeResult.threw };
     decodeAll ([good] ++ bad :: [good]) [1, 2]
       = decodeAll ([good] ++ [good]) [1, 2]) := by
  exact C9_decode_all.2 _ _ _ [1, 2] rfl

/-! ## C2 -/

/-- C2 counterexample: a registered decoder that matches a tx entry's data
makes the `line` broadcast carry `decoded` even though the entry is tx — the
listener never looks at `direction`. -/
theorem C2_counterexample :
    (let p : DecoderPlugin :=
       { name := "any", decode := fun _ => DecodeResult.ok
           (some { protocol := "any", fields := [], display := "d" }) };
     let e : LineEntry :=
       { timestamp := 0, direction := Direction.tx, data := "AT",
         mode := some SendMode.ascii, index := 0, channelId := "default" };
     e.direction = Direction.tx
       ∧ (wsLineMessage [p] "default" e).decoded
           = some [{ plugin := "any", protocol := "any", fields := [], display := "d" }]) :=
  ⟨rfl, rfl⟩

/-- C2 (amended): the `line` broadcast carries `decoded` exactly when at
least one registered decoder returned non-null on the entry's data — for rx
and tx entries alike. -/
theorem C2_decoded_attachment (ps : List DecoderPlugin) (channelId : String)
    (e : LineEntry) :
    (wsLineMessage ps channelId e).decoded ≠ none
      ↔ ∃ p ∈ ps, ∃ r, p.decode (utf8Bytes e.data) = DecodeResult.ok (some r) := by
  unfold wsLineMessage
  simp only
  by_cases h : 0 < (decodeAll ps (utf8Bytes e.data)).length
  · rw [if_pos h]
    simp only [ne_eq, reduceCtorEq, not_false_eq_true, true_iff]
    have hne : decodeAll ps (utf8Bytes e.data) ≠ [] := by
      intro hnil
      rw [hnil] at h
      simp at h
    rw [decodeAll_eq_filterMap] at hne
    by_contra hno
    push_neg at hno
    apply hne
    rw [List.filterMap_eq_nil_iff]
    intro p hp
    cases hd : p.decode (utf8Bytes e.data) with
    | ok r =>
      cases r with
      | some fr => exact absurd hd (hno p hp fr)
      | none => rfl
    | threw => rfl
  · rw [if_neg h]
    simp only [ne_eq, not_true_eq_false, false_iff]
    intro ⟨p, hp, r, hr⟩
    apply h
    have : (decodeAll ps (utf8Bytes e.data)) ≠ [] := by
      rw [decodeAll_eq_filterMap]
      intro hnil
      rw [List.filterMap_eq_nil_iff] at hnil
      have := hnil p hp
      rw [hr] at this
      cases this
    exact List.length_pos.mpr this

/-! ## C3 -/

/-- A decoded hex digit is below 16. -/
lemma hexVal_lt (c : Char) (v : Nat) (h : hexVal c = some v) : v < 16 := by
  unfold hexVal at h
  split_ifs at h with h1 h2 h3 <;> simp_all <;> omega

/-- Every byte produced by the hex decoder is below 256 (bounded form). -/
lemma hexDecodeBytes_bound : ∀ (n : Nat) (cs : List Char), cs.length ≤ n →
    ∀ b ∈ hexDecodeBytes cs, b < 256 := by
  intro n
  induction n with
  | zero =>
    intro cs hlen b hb
    have hnil : cs = [] := List.eq_nil_of_length_eq_zero (Nat.le_zero.mp hlen)
    subst hnil
    simp [hexDecodeBytes] at hb
  | succ n ih =>
    intro cs hlen b hb
    cases cs with
    | nil => simp [hexDecodeBytes] at hb
    | cons c1 rest1 =>
      cases rest1 with
      | nil => simp [hexDecodeBytes] at hb
      | cons c2 rest =>
        rw [hexDecodeBytes] at hb
        cases hv1 : hexVal c1 with
        | none => rw [hv1] at hb; simp at hb
        | some hi =>
          cases hv2 : hexVal c2 with
          | none => rw [hv1, hv2] at hb; simp at hb
          | some lo =>
            rw [hv1, hv2] at hb
            simp only [List.mem_cons] at hb
            rcases hb with hb | hb
            · subst hb
              have h1 := hexVal_lt c1 hi hv1
              have h2 := hexVal_lt c2 lo hv2
              omega
            · refine ih rest ?_ b hb
              simp only [List.length_cons] at hlen
              omega

/-- A fully valid even-length hex string decodes completely: one byte per
pair of digits (bounded form). -/
lemma hexDecodeBytes_full : ∀ (n : Nat) (cs : List Char), cs.length ≤ n →
    (∀ c ∈ cs, (hexVal c).isSome = true) → cs.length % 2 = 0 →
    (hexDecodeBytes cs).length = cs.length / 2 := by
  intro n
  induction n with
  | zero =>
    intro cs hlen _ _
    have hnil : cs = [] := List.eq_nil_of_length_eq_zero (Nat.le_zero.mp hlen)
    subst hnil
    rfl
  | succ n ih =>
    intro cs hlen hall hpar
    cases cs with
    | nil => rfl
    | cons c1 rest1 =>
      cases rest1 with
      | nil => simp at hpar
      | cons c2 rest =>
        obtain ⟨hi, hv1⟩ := Option.isSome_iff_exists.mp (hall c1 (by simp))
        obtain ⟨lo, hv2⟩ := Option.isSome_iff_exists.mp (hall c2 (by simp))
        rw [hexDecodeBytes, hv1, hv2]
        simp only [List.length_cons]
        have hrest : (hexDecodeBytes rest).length = rest.length / 2 := by
          refine ih rest ?_ ?_ ?_
          · simp only [List.length_cons] at hlen; omega
          · intro c hc; exact hall c (by simp [hc])
          · simp only [List.length_cons] at hpar; omega
        rw [hrest]
        simp only [List.length_cons] at hpar ⊢
        omega

/-- C3 counterexample: a connected channel sent the malformed hex payload
`"41zz"` does not fail — the decoder silently truncates at the bad pair, the
single byte `0x41` is handed to `port.write`, and the write succeeds,
bumping `bytesTx` to 1 and `linesTx` to 1. -/
theorem C3_counterexample :
    (let c : SerialConnection :=
       { SerialConnection.init "a" with hasPort := true, connected := true };
     sendEncode "41zz" SendMode.hex = [65]
       ∧ (c.send "41zz" SendMode.hex none 0).toOption.map
           (fun r => (r.1.stats.bytesTx, r.1.stats.linesTx)) = some (1, 1)) := by
  exact ⟨by decide, by decide⟩

/-- C3 (amended): hex send strips whitespace and decodes the longest leading
run of valid hex pairs; a malformed payload never makes the call fail (no
`InvalidEncoding` is raised — the decoded prefix, possibly empty, is
written).  When the stripped payload is entirely valid pairs, the whole
payload is decoded, one byte (below 256) per pair. -/
theorem C3_hex_send :
    (∀ (c : SerialConnection) (data : String) (w : Option String) (now : Nat),
      c.hasPort = true → c.connected = true →
        (c.send data SendMode.hex w now).isOk = true)
    ∧ (∀ cs : List Char, (∀ ch ∈ cs, (hexVal ch).isSome = true) →
        cs.length % 2 = 0 → (hexDecodeBytes cs).length = cs.length / 2)
    ∧ (∀ cs : List Char, ∀ b ∈ hexDecodeBytes cs, b < 256) := by
  refine ⟨?_, ?_, ?_⟩
  · intro c data w now hp hc
    unfold SerialConnection.send
    rw [if_neg (by simp [hp, hc])]
    cases w <;> rfl
  · intro cs hall hpar
    exact hexDecodeBytes_full cs.length cs le_rfl hall hpar
  · intro cs
    exact hexDecodeBytes_bound cs.length cs le_rfl

/-- C3 witness: the no-failure clause on a concrete connected channel with a
fully malformed payload, and the full-decode clause on `"abcd"`. -/
theorem C3_hex_send_witness :
    ((({ SerialConnection.init "a" with hasPort := true, connected := true } :
        SerialConnection).send "zz" SendMode.hex none 0).isOk = true)
    ∧ (hexDecodeBytes ("abcd".data)).length = ("abcd".data).length / 2 :=
  ⟨C3_hex_send.1 _ "zz" none 0 rfl rfl,
   C3_hex_send.2.1 ("abcd".data) (by decide) (by decide)⟩

/-! ## C4 -/

/-- A binary digit's value is at most 1. -/
lemma bitDigit_le (c : Char) : bitDigit c ≤ 1 := by
  unfold bitDigit
  split <;> omega

/-- The base-2 fold shifted by an initial accumulator. -/
lemma bitsVal_foldl (cs : List Char) : ∀ a : Nat,
    cs.foldl (fun a c => 2 * a + bitDigit c) a = a * 2 ^ cs.length + bitsVal cs := by
  induction cs with
  | nil => intro a; simp [bitsVal]
  | cons c cs ih =>
    intro a
    have hfold : List.foldl (fun a c => 2 * a + bitDigit c) 0 cs = bitsVal cs := rfl
    have hbv : bitsVal (c :: cs) = bitDigit c * 2 ^ cs.length + bitsVal cs := by
      unfold bitsVal
      simp only [List.foldl_cons]
      rw [ih (2 * 0 + bitDigit c), hfold]
      ring
    simp only [List.foldl_cons]
    rw [ih (2 * a + bitDigit c), hbv, List.length_cons]
    ring

/-- The first character of a bit string carries the highest weight:
the packing is MSB-first. -/
lemma bitsVal_cons (c : Char) (cs : List Char) :
    bitsVal (c :: cs) = bitDigit c * 2 ^ cs.length + bitsVal cs := by
  have hfold : List.foldl (fun a c => 2 * a + bitDigit c) 0 cs = bitsVal cs := rfl
  unfold bitsVal
  simp only [List.foldl_cons]
  rw [bitsVal_foldl cs (2 * 0 + bitDigit c), hfold]
  ring

/-- A k-character chunk evaluates below `2 ^ k` — the value is right-aligned
(zero-extended on the left), not padded on the right. -/
lemma bitsVal_lt (cs : List Char) : bitsVal cs < 2 ^ cs.length := by
  induction cs with
  | nil => simp [bitsVal]
  | cons c cs ih =>
    rw [bitsVal_cons, List.length_cons, pow_succ]
    have hd : bitDigit c * 2 ^ cs.length ≤ 2 ^ cs.length := by
      calc bitDigit c * 2 ^ cs.length ≤ 1 * 2 ^ cs.length :=
            Nat.mul_le_mul_right _ (bitDigit_le c)
        _ = 2 ^ cs.length := one_mul _
    omega

/-- Chunks are nonempty, at most 8 characters, and drawn from the input. -/
lemma mem_chunks8Go : ∀ (fuel : Nat) (l : List Char),
    ∀ ch ∈ chunks8Go fuel l, ch ≠ [] ∧ ch.length ≤ 8 ∧ ∀ c ∈ ch, c ∈ l := by
  intro fuel
  induction fuel with
  | zero =>
    intro l ch hch
    cases l <;> simp [chunks8Go] at hch
  | succ fuel ih =>
    intro l ch hch
    cases l with
    | nil => simp [chunks8Go] at hch
    | cons c rest =>
      rw [chunks8Go] at hch
      simp only [List.mem_cons] at hch
      rcases hch with h | h
      · refine ⟨by simp [h], ?_, ?_⟩
        · rw [h]
          simp only [List.length_cons, List.length_take]
          omega
        · intro x hx
          rw [h] at hx
          rcases List.mem_cons.mp hx with h1 | h1
          · rw [h1]; exact List.mem_cons_self _ _
          · exact List.mem_cons_of_mem _ (List.mem_of_mem_take h1)
      · obtain ⟨h1, h2, h3⟩ := ih (rest.drop 7) ch h
        exact ⟨h1, h2, fun x hx =>
          List.mem_cons_of_mem _ (List.mem_of_mem_drop (h3 x hx))⟩

/-- C4 (amended): binary send packs each 8-character chunk of the stripped
bit string via base-2 evaluation — MSB-first for full chunks (the head digit
carries weight `2 ^ (length - 1)`), but a trailing chunk of `k < 8` bits
evaluates to its base-2 value below `2 ^ k`: the bits are padded with zeros
on the LEFT, so the 1-bit string `"1"` encodes to `0x01`, not `0x80`. -/
theorem C4_binary_packing :
    (∀ cs : List Char, (∀ c ∈ cs, isBit c = true) →
      binaryBytes cs = (chunks8 cs).map bitsVal)
    ∧ (∀ (c : Char) (cs : List Char),
        bitsVal (c :: cs) = bitDigit c * 2 ^ cs.length + bitsVal cs)
    ∧ (∀ cs : List Char, bitsVal cs < 2 ^ cs.length) := by
  refine ⟨?_, bitsVal_cons, bitsVal_lt⟩
  intro cs h
  unfold binaryBytes
  apply List.map_congr_left
  intro ch hch
  obtain ⟨hne, hlen, hsub⟩ := mem_chunks8Go cs.length cs ch hch
  have hbits : ∀ c ∈ ch, isBit c = true := fun c hc => h c (hsub c hc)
  have htake : ch.takeWhile isBit = ch := List.takeWhile_eq_self_iff.mpr hbits
  have hpi : parseIntBin ch = some (bitsVal ch) := by
    unfold parseIntBin
    rw [htake, if_neg (by simp [hne])]
  rw [hpi]
  show bitsVal ch % 256 = bitsVal ch
  refine Nat.mod_eq_of_lt (lt_of_lt_of_le (bitsVal_lt ch) ?_)
  calc 2 ^ ch.length ≤ 2 ^ 8 := Nat.pow_le_pow_right (by omega) hlen
    _ = 256 := by norm_num

/-- C4 counterexample: binary send of the 1-bit string `"1"` writes the
single byte `0x01`, not the `0x80` the claim requires. -/
theorem C4_counterexample :
    sendEncode "1" SendMode.binary = [1]
    ∧ ¬ sendEncode "1" SendMode.binary = [128] := by
  exact ⟨by decide, by decide⟩

/-- C4 witness: the chunk-map clause applied to the concrete bit string
`"101"`. -/
theorem C4_binary_packing_witness :
    binaryBytes ("101".data) = (chunks8 ("101".data)).map bitsVal :=
  C4_binary_packing.1 ("101".data) (by decide)

/-! ## C5 -/

/-- The code's command loop is the claim's command loop plus the trailing
suspension after the last command. -/
lemma runCmds_split (channelId : String) (params : List (String × String)) :
    ∀ cmds : List MacroCmd,
      runCmds channelId params cmds
        = claimRunCmds channelId params cmds ++ trailingDelay cmds := by
  intro cmds
  induction cmds with
  | nil => simp [runCmds, claimRunCmds, trailingDelay]
  | cons cmd rest ih =>
    cases rest with
    | nil =>
      simp [runCmds, claimRunCmds, trailingDelay]
    | cons c2 rest2 =>
      rw [runCmds, ih]
      rw [show claimRunCmds channelId params (cmd :: c2 :: rest2)
            = MacroStep.send channelId (substParams params cmd.data)
                (cmd.mode.getD SendMode.ascii)
              :: ((if 0 < cmd.delayMs then [MacroStep.sleep cmd.delayMs] else [])
                  ++ claimRunCmds channelId params (c2 :: rest2)) from rfl]
      rw [show trailingDelay (cmd :: c2 :: rest2) = trailingDelay (c2 :: rest2) by
        unfold trailingDelay
        rw [List.getLast?_cons_cons]]
      simp [List.append_assoc]

/-- Folding an append over `range n` concatenates `n` copies. -/
lemma foldl_range_append {α : Type} (L : List α) (n : Nat) :
    ∀ init : List α,
      (List.range n).foldl (fun acc _ => acc ++ L) init
        = init ++ (List.replicate n L).flatten := by
  induction n with
  | zero => intro init; simp
  | succ n ih =>
    intro init
    rw [List.range_succ, List.foldl_append, ih]
    rw [List.replicate_succ' n L]
    simp [List.append_assoc]

/-- C5 counterexample: a one-command macro with `delayMs = 5` and
`repeatCount = 1` — the code suspends after the final (only) command of the
final (only) iteration, where the claim says it must not. -/
theorem C5_counterexample :
    (let m : MacroDef :=
       { id := "m1", name := "n",
         commands := [{ data := "GO", mode := some SendMode.ascii, delayMs := 5 }],
         repeatCount := 1 };
     macroRun m [] "default"
         = [MacroStep.send "default" "GO" SendMode.ascii, MacroStep.sleep 5]
       ∧ specTraceClaim m [] "default"
           = [MacroStep.send "default" "GO" SendMode.ascii]) :=
  ⟨rfl, rfl⟩

/-- C5 (amended): `run` performs `repeatCount` (`|| 1`) iterations of the
command list in order, substituting each `{{name}}` placeholder whose key is
in `paramValues` (unreplaced placeholders go out literally) and sending with
the command's mode (defaulted to ascii); it suspends for `delayMs` after
every command whose delay is positive — between iterations AND after the
final command of the final iteration: the code trace is the claim's trace
plus that one trailing suspension. -/
theorem C5_macro_run (m : MacroDef) (params : List (String × String))
    (channelId : String) :
    macroRun m params channelId
      = specTraceClaim m params channelId ++ trailingDelay m.commands := by
  unfold macroRun specTraceClaim
  simp only [foldl_range_append, List.nil_append]
  by_cases h0 : m.repeatCount = 0
  · rw [if_pos h0]
    simp [runCmds_split]
  · rw [if_neg h0]
    obtain ⟨k, hk⟩ : ∃ k, m.repeatCount = k + 1 :=
      ⟨m.repeatCount - 1, by omega⟩
    rw [hk]
    rw [show k + 1 - 1 = k from rfl]
    rw [List.replicate_succ' k (runCmds channelId params m.commands)]
    rw [List.flatten_append]
    simp [runCmds_split, List.append_assoc]

end SerialMonitor
